import Mathlib

/-!
Verification of the PIEthon3.0 medical-backend specification.

The repository's `src/` snapshot contains only documentation (READMEs),
`docker-compose.yml`, `setup.sh` and unrelated ML prototype notebooks; the
Python application code (`core/auth.py`, `core/manage_funcs/`, `server.py`)
is not part of the snapshot.  The authorization core (Token Service,
Authorization Guard, Assignment Manager, Credential/Login flow, record
services) is therefore modelled from the specification's component
contracts (spec §3, §4, §6, §7), as marked on each definition.
`setup.sh` and `docker-compose.yml` are present and are embedded directly
from the source.
-/

namespace PIEthon

/-- Modelled from the spec: the error taxonomy of §7 (`InvalidCredentials`,
`DuplicateEmail`, `InvalidToken`, `ExpiredToken`, `NotAssigned`, `NotFound`,
`ValidationError`); the Python modules raising these are missing from the
snapshot. -/
inductive AppError
  | invalidCredentials
  | duplicateEmail
  | invalidToken
  | expiredToken
  | notAssigned
  | notFound
  | validationError
  deriving DecidableEq, Repr

/-- Modelled from the spec: §7 maps each error at the boundary to a
client-facing HTTP status code (401/403/404/409/422 equivalents). -/
def statusOf : AppError → Nat
  | .invalidCredentials => 401
  | .invalidToken => 401
  | .expiredToken => 401
  | .notAssigned => 403
  | .notFound => 404
  | .duplicateEmail => 409
  | .validationError => 422

/-! ## Token Service (spec §4.1), modelled from the spec -/

/-- Modelled from the spec: the fixed TTL of issued tokens ("fixed TTL,
e.g., 30–60 minutes"), in seconds; the Python constant is missing from the
snapshot. -/
def TTL : Nat := 1800

/-- Modelled from the spec: a signed token embedding the doctor's
identifier and an expiration timestamp (§4.1); the Python JWT payload is
missing from the snapshot. -/
structure Token where
  doctorId : Nat
  expiresAt : Nat
  sig : Nat
  deriving DecidableEq, Repr

/-- Modelled from the spec: the symmetric-secret signature over the token
payload ("Signing uses a symmetric secret held in process-wide
configuration"); the HMAC computation is missing from the snapshot, so a
concrete stand-in keyed by the secret and the payload fields is used.  No
claim depends on the particular function, only on signatures being
recomputed from the same secret at verification. -/
def sign (secret doctorId expiresAt : Nat) : Nat :=
  (secret + 1) * 1000003 + doctorId * 1009 + expiresAt

/-- Modelled from the spec: `issue(doctor_identity) → token` produces a
signed token embedding the doctor's identifier and an expiration timestamp
`now + TTL` (§4.1); the Python implementation is missing from the
snapshot. -/
def issue (secret doctorId now : Nat) : Token :=
  { doctorId := doctorId, expiresAt := now + TTL,
    sig := sign secret doctorId (now + TTL) }

/-- Modelled from the spec: `verify(token) → doctor_identity` fails with
`InvalidToken` if the signature does not match, and `ExpiredToken` if the
current time exceeds the embedded expiration (§4.1); the Python
implementation is missing from the snapshot. -/
def verify (secret : Nat) (t : Token) (now : Nat) : Except AppError Nat :=
  if t.sig ≠ sign secret t.doctorId t.expiresAt then .error .invalidToken
  else if t.expiresAt < now then .error .expiredToken
  else .ok t.doctorId

/-! ## Data model (spec §3), modelled from the spec -/

/-- Modelled from the spec: the one-way, salted password hash (§4.4); the
Python hashing call is missing from the snapshot, so a concrete injective
stand-in is used.  No claim depends on the particular function, only on
login comparing the stored hash with the hash of the presented
password. -/
def hashPw (password : String) : String :=
  String.append "salted#" password

/-- Modelled from the spec: the Doctor entity of §3 (unique identifier,
unique email, license number, phone, name, password hash); the SQLAlchemy
model is missing from the snapshot. -/
structure Doctor where
  doctorId : Nat
  email : String
  licenseNum : String
  phone : String
  name : String
  passwordHash : String
  deriving DecidableEq, Repr

/-- Modelled from the spec: the Patient entity of §3 (unique medical
record number, phone, name); the SQLAlchemy model is missing from the
snapshot. -/
structure Patient where
  patientMrn : Nat
  phone : String
  name : String
  deriving DecidableEq, Repr

/-- Modelled from the spec: the Note entity of §3 (unique identifier, one
patient, one authoring doctor, title, content, category tag); the
SQLAlchemy model is missing from the snapshot. -/
structure Note where
  noteId : Nat
  patientMrn : Nat
  doctorId : Nat
  title : String
  content : String
  noteType : String
  deriving DecidableEq, Repr

/-- Modelled from the spec: the Appointment entity of §3 (unique
identifier, one patient, one doctor, free-text detail, start time, end
time); the SQLAlchemy model is missing from the snapshot. -/
structure Appointment where
  appointmentId : Nat
  patientMrn : Nat
  doctorId : Nat
  detail : String
  startTime : Nat
  finishTime : Nat
  deriving DecidableEq, Repr

/-- Modelled from the spec: the five relations of §3 owned by the
database, with `nextId` standing for the database's identifier
generation.  Assignments are the join rows (doctor id, patient mrn) of the
many-to-many DoctorPatientAssignment entity. -/
structure Db where
  doctors : List Doctor
  patients : List Patient
  assignments : List (Nat × Nat)
  notes : List Note
  appointments : List Appointment
  nextId : Nat
  deriving DecidableEq, Repr

/-- The empty database, as produced by the out-of-band migrations before
the service starts (spec §6). -/
def initDb : Db :=
  { doctors := [], patients := [], assignments := [], notes := [],
    appointments := [], nextId := 0 }

/-! ## Assignment Manager (spec §4.3), modelled from the spec -/

/-- Modelled from the spec: `is_assigned(doctor_id, patient_id) → bool`,
the authorization predicate consulted before every patient/note/appointment
read or write (§4.3); the Python implementation is missing from the
snapshot. -/
def is_assigned (db : Db) (doctorId patientMrn : Nat) : Bool :=
  db.assignments.any (fun a => a.1 = doctorId ∧ a.2 = patientMrn)

/-- Modelled from the spec: `assign(doctor_id, patient_id)` creates the
join row idempotently — a no-op if already present, never a uniqueness
error to the caller (§4.3); the join row is subject to the database's
foreign-key constraint on the patient (§6).  The Python implementation is
missing from the snapshot. -/
def assign (db : Db) (doctorId patientMrn : Nat) : Db :=
  if is_assigned db doctorId patientMrn then db
  else if db.patients.any (fun p => p.patientMrn = patientMrn) then
    { db with assignments := db.assignments ++ [(doctorId, patientMrn)] }
  else db

/-! ## Credential & Login flow (spec §4.4), modelled from the spec -/

/-- Modelled from the spec: `register(email, license_num, phone, name,
password) → doctor_id`, failing with `DuplicateEmail` if the email is
already registered, hashing the password before persistence (§4.4); the
Python implementation is missing from the snapshot. -/
def register (db : Db) (email licenseNum phone name password : String) :
    Except AppError (Nat × Db) :=
  if db.doctors.any (fun d => d.email = email) then .error .duplicateEmail
  else
    .ok (db.nextId,
      { db with
        doctors := db.doctors ++
          [{ doctorId := db.nextId, email := email, licenseNum := licenseNum,
             phone := phone, name := name, passwordHash := hashPw password }],
        nextId := db.nextId + 1 })

/-- Modelled from the spec: `authenticate(email, password) → token`,
failing with `InvalidCredentials` both when the email is unknown and when
the password hash does not match (deliberately indistinguishable, §4.4);
on success delegates to Token Service `issue`.  The Python implementation
is missing from the snapshot. -/
def authenticate (secret : Nat) (db : Db) (email password : String)
    (now : Nat) : Except AppError Token :=
  match db.doctors.find? (fun d => d.email = email) with
  | none => .error .invalidCredentials
  | some d =>
    if d.passwordHash = hashPw password then .ok (issue secret d.doctorId now)
    else .error .invalidCredentials

/-! ## Record Services (spec §2, §4.3), modelled from the spec -/

/-- Modelled from the spec: patient creation by a doctor — the database
assigns a fresh MRN and the creating doctor is automatically assigned
through the Assignment Manager (§4.3); the Python implementation is
missing from the snapshot. -/
def createPatient (db : Db) (doctorId : Nat) (phone name : String) :
    Nat × Db :=
  let mrn := db.nextId
  let db1 :=
    { db with
      patients := db.patients ++ [{ patientMrn := mrn, phone := phone, name := name }],
      nextId := db.nextId + 1 }
  (mrn, assign db1 doctorId mrn)

/-- Modelled from the spec: a patient read, gated by `is_assigned` before
the read (§4.3), failing with `NotAssigned` on denial and `NotFound` on
absence (§7); the Python implementation is missing from the snapshot. -/
def readPatient (db : Db) (doctorId patientMrn : Nat) :
    Except AppError Patient :=
  if ¬ is_assigned db doctorId patientMrn then .error .notAssigned
  else
    match db.patients.find? (fun p => p.patientMrn = patientMrn) with
    | none => .error .notFound
    | some p => .ok p

/-- Modelled from the spec: a patient update, gated by `is_assigned`
before the write (§4.3); the Python implementation is missing from the
snapshot. -/
def updatePatient (db : Db) (doctorId patientMrn : Nat)
    (phone name : String) : Except AppError Db :=
  if ¬ is_assigned db doctorId patientMrn then .error .notAssigned
  else
    match db.patients.find? (fun p => p.patientMrn = patientMrn) with
    | none => .error .notFound
    | some _ =>
      .ok { db with
            patients := db.patients.map (fun p =>
              if p.patientMrn = patientMrn then
                { p with phone := phone, name := name }
              else p) }

/-- Modelled from the spec: note creation on a patient, gated by
`is_assigned` before the write (§4.3); note creation alone never grants
access — the assignment relation is untouched.  The Python implementation
is missing from the snapshot. -/
def createNote (db : Db) (doctorId patientMrn : Nat)
    (title content noteType : String) : Except AppError (Nat × Db) :=
  if ¬ is_assigned db doctorId patientMrn then .error .notAssigned
  else
    .ok (db.nextId,
      { db with
        notes := db.notes ++
          [{ noteId := db.nextId, patientMrn := patientMrn,
             doctorId := doctorId, title := title, content := content,
             noteType := noteType }],
        nextId := db.nextId + 1 })

/-- Modelled from the spec: a note read — the note's patient is resolved
and `is_assigned` is consulted before the read (§4.3); the Python
implementation is missing from the snapshot. -/
def readNote (db : Db) (doctorId noteId : Nat) : Except AppError Note :=
  match db.notes.find? (fun n => n.noteId = noteId) with
  | none => .error .notFound
  | some n =>
    if ¬ is_assigned db doctorId n.patientMrn then .error .notAssigned
    else .ok n

/-- Modelled from the spec: a note content update, gated by `is_assigned`
on the note's patient before the write (§3, §4.3); author and patient
references are immutable after creation (§3).  The Python implementation
is missing from the snapshot. -/
def updateNote (db : Db) (doctorId noteId : Nat) (content : String) :
    Except AppError Db :=
  match db.notes.find? (fun n => n.noteId = noteId) with
  | none => .error .notFound
  | some n =>
    if ¬ is_assigned db doctorId n.patientMrn then .error .notAssigned
    else
      .ok { db with
            notes := db.notes.map (fun m =>
              if m.noteId = noteId then { m with content := content } else m) }

/-- Modelled from the spec: appointment creation, gated by `is_assigned`
before the write (§4.3) and validated against the §3 invariant that the
start time precedes the end time, failing with `ValidationError` on a
malformed interval (§7); the Python implementation is missing from the
snapshot. -/
def createAppointment (db : Db) (doctorId patientMrn : Nat)
    (detail : String) (startTime finishTime : Nat) :
    Except AppError (Nat × Db) :=
  if ¬ is_assigned db doctorId patientMrn then .error .notAssigned
  else if finishTime ≤ startTime then .error .validationError
  else
    .ok (db.nextId,
      { db with
        appointments := db.appointments ++
          [{ appointmentId := db.nextId, patientMrn := patientMrn,
             doctorId := doctorId, detail := detail,
             startTime := startTime, finishTime := finishTime }],
        nextId := db.nextId + 1 })

/-- Modelled from the spec: an appointment read — the appointment's
patient is resolved and `is_assigned` is consulted before the read (§4.3);
the Python implementation is missing from the snapshot. -/
def readAppointment (db : Db) (doctorId appointmentId : Nat) :
    Except AppError Appointment :=
  match db.appointments.find? (fun a => a.appointmentId = appointmentId) with
  | none => .error .notFound
  | some a =>
    if ¬ is_assigned db doctorId a.patientMrn then .error .notAssigned
    else .ok a

/-- Modelled from the spec: an appointment detail update, gated by
`is_assigned` on the appointment's patient before the write (§4.3); the
Python implementation is missing from the snapshot. -/
def updateAppointment (db : Db) (doctorId appointmentId : Nat)
    (detail : String) : Except AppError Db :=
  match db.appointments.find? (fun a => a.appointmentId = appointmentId) with
  | none => .error .notFound
  | some a =>
    if ¬ is_assigned db doctorId a.patientMrn then .error .notAssigned
    else
      .ok { db with
            appointments := db.appointments.map (fun b =>
              if b.appointmentId = appointmentId then
                { b with detail := detail }
              else b) }

/-! ## Reachable database states -/

/-- The database states reachable from the migrated empty database through
the modelled operations.  Operations that fail leave the state unchanged
(their `Except` result carries no new state), so only successful outcomes
produce steps. -/
inductive Reachable : Db → Prop
  | init : Reachable initDb
  | registerStep {db db' : Db} {id : Nat} {e l p n pw : String} :
      Reachable db → register db e l p n pw = .ok (id, db') → Reachable db'
  | assignStep {db : Db} {d p : Nat} :
      Reachable db → Reachable (assign db d p)
  | createPatientStep {db : Db} {d : Nat} {ph nm : String} :
      Reachable db → Reachable (createPatient db d ph nm).2
  | createNoteStep {db db' : Db} {d p id : Nat} {t c ty : String} :
      Reachable db → createNote db d p t c ty = .ok (id, db') → Reachable db'
  | updatePatientStep {db db' : Db} {d p : Nat} {ph nm : String} :
      Reachable db → updatePatient db d p ph nm = .ok db' → Reachable db'
  | updateNoteStep {db db' : Db} {d nid : Nat} {c : String} :
      Reachable db → updateNote db d nid c = .ok db' → Reachable db'
  | createAppointmentStep {db db' : Db} {d p id st ft : Nat} {de : String} :
      Reachable db → createAppointment db d p de st ft = .ok (id, db') →
      Reachable db'
  | updateAppointmentStep {db db' : Db} {d aid : Nat} {de : String} :
      Reachable db → updateAppointment db d aid de = .ok db' → Reachable db'

/-! ## Authorization Guard (spec §4.2), modelled from the spec -/

/-- Modelled from the spec: the guard around a protected handler — it
extracts the bearer token, calls Token Service `verify`, answers with the
authentication error on failure without invoking the handler, and passes
the resolved doctor identity to the handler on success (§4.2); the FastAPI
dependency is missing from the snapshot. -/
def guardHandle {α : Type} (secret now : Nat) (token : Option Token)
    (handler : Nat → Except AppError α) : Except AppError α :=
  match token with
  | none => .error .invalidToken
  | some t =>
    match verify secret t now with
    | .error e => .error e
    | .ok d => handler d

/-- Modelled from the spec: the HTTP endpoints of §2 and §4.2 —
registration and login are public, record reads are protected; the FastAPI
routes are missing from the snapshot. -/
inductive Endpoint
  | registerEp (email licenseNum phone name password : String)
  | loginEp (email password : String)
  | readPatientEp (patientMrn : Nat)
  | readNoteEp (noteId : Nat)
  | readAppointmentEp (appointmentId : Nat)

/-- Modelled from the spec: "Public endpoints (registration, login) bypass
this guard entirely" (§4.2). -/
def isPublic : Endpoint → Bool
  | .registerEp _ _ _ _ _ => true
  | .loginEp _ _ => true
  | .readPatientEp _ => false
  | .readNoteEp _ => false
  | .readAppointmentEp _ => false

/-- Modelled from the spec: the structured JSON response bodies handed
back to the HTTP layer (§6). -/
inductive RespBody
  | doctorCreated (doctorId : Nat) (db : Db)
  | tokenResp (t : Token)
  | patientResp (p : Patient)
  | noteResp (n : Note)
  | appointmentResp (a : Appointment)

/-- Modelled from the spec: the control flow of §2 — a request on a public
endpoint goes straight to the credential flow, a request on a protected
endpoint goes through the Authorization Guard, which passes the resolved
doctor identity to the record service; the FastAPI application is missing
from the snapshot. -/
def dispatch (secret now : Nat) (db : Db) (ep : Endpoint)
    (token : Option Token) : Except AppError RespBody :=
  match ep with
  | .registerEp e l p n pw =>
    (register db e l p n pw).map (fun r => .doctorCreated r.1 r.2)
  | .loginEp e pw => (authenticate secret db e pw now).map .tokenResp
  | .readPatientEp p =>
    guardHandle secret now token (fun d => (readPatient db d p).map .patientResp)
  | .readNoteEp nid =>
    guardHandle secret now token (fun d => (readNote db d nid).map .noteResp)
  | .readAppointmentEp aid =>
    guardHandle secret now token
      (fun d => (readAppointment db d aid).map .appointmentResp)

/-! ## The setup script (`setup.sh`), embedded from the source

`setup.sh` runs under `set -e`: a failing plain command aborts the script.
Commands in condition position (the `until` loop's condition, the `if`
conditions) and the `TABLE_COUNT=$(... || echo "0")` assignment are exempt
from `set -e`, which the embedding reflects with `checked` /
condition-position outcomes. -/

/-- Outcome of one finished run of (a part of) the script: ran to the end,
aborted by `set -e`, stopped by an explicit `exit 1`, or the `until` loop
outlived the fuel. -/
inductive ShStatus
  | ok
  | aborted
  | exited
  | diverged
  deriving DecidableEq, Repr

/-- Shell fragments of `setup.sh`: a plain command (subject to `set -e`),
a command whose failure is tolerated, sequencing, a command list, an
`if`/`else` on a command's exit status, an `until` loop with a plain-command
body, and `exit 1`. -/
inductive Sh
  | cmd (c : String)
  | checked (c : String)
  | cmds (l : List String)
  | seq (a b : Sh)
  | ifElse (c : String) (t e : Sh)
  | untilLoop (c : String) (body : List String)
  | exit1

/-- Run one command: append it to the trace; its success is read off the
environment `out` at the command's position in the trace. -/
def runCmd (out : Nat → String → Bool) (tr : List String) (c : String) :
    List String × Bool :=
  (tr ++ [c], out tr.length c)

/-- Run a list of plain commands under `set -e`: stop at the first
failure. -/
def execCmds (out : Nat → String → Bool) :
    List String → List String → List String × Bool
  | [], tr => (tr, true)
  | c :: cs, tr =>
    let r := runCmd out tr c
    if r.2 then execCmds out cs r.1 else (r.1, false)

/-- Run an `until` loop: re-run the condition (exempt from `set -e`) until
it succeeds, running the body between attempts; `fuel` bounds the number
of attempts. -/
def execUntil (out : Nat → String → Bool) (c : String) (body : List String) :
    Nat → List String → List String × ShStatus
  | 0, tr => (tr, .diverged)
  | fuel + 1, tr =>
    let r := runCmd out tr c
    if r.2 then (r.1, .ok)
    else
      let rb := execCmds out body r.1
      if rb.2 then execUntil out c body fuel rb.1 else (rb.1, .aborted)

/-- Run a shell fragment under `set -e` semantics, threading the trace of
executed commands. -/
def execSh (out : Nat → String → Bool) (fuel : Nat) :
    Sh → List String → List String × ShStatus
  | .cmd c, tr =>
    let r := runCmd out tr c
    (r.1, if r.2 then .ok else .aborted)
  | .checked c, tr => ((runCmd out tr c).1, .ok)
  | .cmds l, tr =>
    let r := execCmds out l tr
    (r.1, if r.2 then .ok else .aborted)
  | .seq a b, tr =>
    match execSh out fuel a tr with
    | (tr2, .ok) => execSh out fuel b tr2
    | r => r
  | .ifElse c t e, tr =>
    let r := runCmd out tr c
    if r.2 then execSh out fuel t r.1 else execSh out fuel e r.1
  | .untilLoop c body, tr => execUntil out c body fuel tr
  | .exit1, tr => (tr, .exited)

/-- The unconditional opening commands of `setup.sh` (lines 5–28), in
source order: `docker compose down -v` is command 7 and
`docker compose up -d` is command 11. -/
def earlyCmds : List String :=
  [ "echo Setting up PIEthon3.0 Medical System...",
    "echo",
    "echo Installing dependencies...",
    "pip install -r requirements.txt",
    "echo Dependencies installed",
    "echo",
    "echo Stopping and cleaning up existing containers...",
    "docker compose down -v",
    "echo Containers stopped and volumes cleared",
    "echo",
    "echo Starting fresh PostgreSQL container...",
    "docker compose up -d",
    "echo PostgreSQL container started",
    "echo",
    "echo Waiting for PostgreSQL to be ready...",
    "sleep 15",
    "echo Checking PostgreSQL connection..." ]

/-- The migration section of `setup.sh` (lines 36–53): `alembic upgrade
head` in `if`-condition position; on failure, the table count is probed
(the `|| echo "0"` fallback makes the probe failure-tolerant) and the
script either stamps the migration state or exits with status 1.  The SQL
text of the probe is abbreviated. -/
def migrationBlock : Sh :=
  .ifElse "alembic upgrade head"
    (.cmds ["echo Database migrations completed successfully"])
    (.seq (.cmds ["echo Migration failed. Checking if tables exist..."])
      (.seq
        (.checked "TABLE_COUNT=$(docker compose exec -T postgres-db psql -U admin -d postgres -t -c select-count-of-public-base-tables || echo 0)")
        (.ifElse "[ $TABLE_COUNT -gt 0 ]"
          (.cmds ["echo Found $TABLE_COUNT tables. Syncing migration state...",
                  "alembic stamp head",
                  "echo Migration state synchronized"])
          (.seq
            (.cmds ["echo No tables found but migration failed. Please check your migration files."])
            .exit1))))

/-- The closing `echo` block of `setup.sh` (lines 54–73). -/
def trailingEchos : List String :=
  [ "echo",
    "echo Setup complete! You can now:",
    "echo    • Start the server: python server.py",
    "echo    • Access pgAdmin: http://localhost:8888",
    "echo    • View API docs: http://localhost:8000/docs",
    "echo",
    "echo pgAdmin credentials:",
    "echo    • Email: admin@example.com",
    "echo    • Password: admin",
    "echo",
    "echo Add new server in pgAdmin with following configurations:",
    "echo    • Host name/address: piethon-pg",
    "echo    • Port: 5432",
    "echo    • Database: postgres",
    "echo    • Username: admin",
    "echo    • Password: 123456",
    "echo",
    "echo After adding server, check tables in Servers > server_name > Databases > postgres > Schemas > Tables > table_name",
    "echo Right click table_name and view/edit data interactively" ]

/-- The part of `setup.sh` after the unconditional opening commands: the
`until pg_isready` wait loop, the readiness messages, the migration
section, and the closing messages. -/
def setupRest : Sh :=
  .seq
    (.untilLoop "docker compose exec postgres-db pg_isready -U admin -d postgres"
      ["echo    Still waiting for PostgreSQL...", "sleep 3"])
    (.seq (.cmds ["echo PostgreSQL is ready", "echo",
                  "echo Running database migrations..."])
      (.seq migrationBlock (.cmds trailingEchos)))

/-- `setup.sh`, embedded from the source in source order: the
unconditional opening commands, then `setupRest`. -/
def setupScript : Sh :=
  .seq (.cmds earlyCmds) setupRest

/-- The position (in the list of commands run so far) of the first command
of `l` that fails under `out`, starting from trace position `base`. -/
def firstFail (out : Nat → String → Bool) (base : Nat) :
    List String → Option Nat
  | [] => none
  | c :: cs =>
    if out base c then (firstFail out (base + 1) cs).map (· + 1) else some 0

/-- Modelled from the spec: the transaction boundary of §5 — a failed
operation commits nothing, so on every error path the database is
unchanged. -/
def commitCreateAppointment (db : Db) (doctorId patientMrn : Nat)
    (detail : String) (startTime finishTime : Nat) : Db :=
  match createAppointment db doctorId patientMrn detail startTime finishTime with
  | .ok r => r.2
  | .error _ => db

/-- A small concrete database used to instantiate theorems: one registered
doctor, one patient (MRN 1) with a note and an appointment, and an empty
assignment relation. -/
def demoDb : Db :=
  { doctors := [{ doctorId := 0, email := "doc@x.com", licenseNum := "L1",
                  phone := "010", name := "Kim", passwordHash := hashPw "pw" }],
    patients := [{ patientMrn := 1, phone := "011", name := "Lee" }],
    assignments := [],
    notes := [{ noteId := 10, patientMrn := 1, doctorId := 0,
                title := "t", content := "c", noteType := "general" }],
    appointments := [{ appointmentId := 20, patientMrn := 1, doctorId := 0,
                       detail := "checkup", startTime := 100, finishTime := 200 }],
    nextId := 21 }

/-! ## Helper lemmas: shell semantics -/

lemma execCmds_spec (out : Nat → String → Bool) (l : List String) :
    ∀ tr : List String,
      execCmds out l tr =
        match firstFail out tr.length l with
        | none => (tr ++ l, true)
        | some k => (tr ++ l.take (k + 1), false) := by
  induction l with
  | nil => intro tr; simp [execCmds, firstFail]
  | cons c cs ih =>
    intro tr
    simp only [execCmds, runCmd, firstFail]
    by_cases h : out tr.length c
    · rw [if_pos h, if_pos h, ih]
      have hlen : (tr ++ [c]).length = tr.length + 1 := by simp
      rw [hlen]
      cases hf : firstFail out (tr.length + 1) cs with
      | none => simp
      | some k => simp [List.take_succ_cons]
    · rw [if_neg h, if_neg h]
      simp

lemma execCmds_append (out : Nat → String → Bool) (l tr : List String) :
    ∃ ext, (execCmds out l tr).1 = tr ++ ext := by
  rw [execCmds_spec]
  cases firstFail out tr.length l with
  | none => exact ⟨l, rfl⟩
  | some k => exact ⟨l.take (k + 1), rfl⟩

lemma execUntil_append (out : Nat → String → Bool) (c : String)
    (body : List String) :
    ∀ (fuel : Nat) (tr : List String),
      ∃ ext, (execUntil out c body fuel tr).1 = tr ++ ext := by
  intro fuel
  induction fuel with
  | zero => intro tr; exact ⟨[], by simp [execUntil]⟩
  | succ n ih =>
    intro tr
    simp only [execUntil, runCmd]
    by_cases h : out tr.length c
    · rw [if_pos h]
      exact ⟨[c], rfl⟩
    · rw [if_neg h]
      obtain ⟨e1, h1⟩ := execCmds_append out body (tr ++ [c])
      by_cases hb : (execCmds out body (tr ++ [c])).2
      · rw [if_pos hb]
        obtain ⟨e2, h2⟩ := ih (execCmds out body (tr ++ [c])).1
        exact ⟨[c] ++ e1 ++ e2, by rw [h2, h1]; simp⟩
      · rw [if_neg hb]
        exact ⟨[c] ++ e1, by rw [h1]; simp⟩

lemma execSh_append (out : Nat → String → Bool) (fuel : Nat) :
    ∀ (s : Sh) (tr : List String),
      ∃ ext, (execSh out fuel s tr).1 = tr ++ ext := by
  intro s
  induction s with
  | cmd c => intro tr; exact ⟨[c], rfl⟩
  | checked c => intro tr; exact ⟨[c], rfl⟩
  | cmds l => intro tr; exact execCmds_append out l tr
  | seq a b iha ihb =>
    intro tr
    obtain ⟨e1, h1⟩ := iha tr
    rcases hr : execSh out fuel a tr with ⟨tr2, st⟩
    have htr2 : tr2 = tr ++ e1 := by rw [hr] at h1; exact h1
    cases st with
    | ok =>
      obtain ⟨e2, h2⟩ := ihb tr2
      refine ⟨e1 ++ e2, ?_⟩
      simp only [execSh, hr]
      rw [h2, htr2, List.append_assoc]
    | aborted => exact ⟨e1, by simp only [execSh, hr]; exact htr2⟩
    | exited => exact ⟨e1, by simp only [execSh, hr]; exact htr2⟩
    | diverged => exact ⟨e1, by simp only [execSh, hr]; exact htr2⟩
  | ifElse c t e iht ihe =>
    intro tr
    simp only [execSh, runCmd]
    by_cases h : out tr.length c
    · rw [if_pos h]
      obtain ⟨e1, h1⟩ := iht (tr ++ [c])
      exact ⟨[c] ++ e1, by rw [h1]; simp⟩
    · rw [if_neg h]
      obtain ⟨e1, h1⟩ := ihe (tr ++ [c])
      exact ⟨[c] ++ e1, by rw [h1]; simp⟩
  | untilLoop c body => intro tr; exact execUntil_append out c body fuel tr
  | exit1 => intro tr; exact ⟨[], by simp [execSh]⟩

lemma firstFail_none_out (out : Nat → String → Bool) :
    ∀ (l : List String) (base : Nat), firstFail out base l = none →
      ∀ k, k < l.length → out (base + k) (l.getD k "") = true := by
  intro l
  induction l with
  | nil => intro base _ k hk; simp at hk
  | cons c cs ih =>
    intro base h k hk
    simp only [firstFail] at h
    by_cases hc : out base c
    · rw [if_pos hc] at h
      cases k with
      | zero => simpa using hc
      | succ m =>
        have hcs : firstFail out (base + 1) cs = none := by
          cases hcs : firstFail out (base + 1) cs with
          | none => rfl
          | some j => rw [hcs] at h; simp at h
        have := ih (base + 1) hcs m (by simpa using hk)
        simpa [Nat.add_comm, Nat.add_assoc, Nat.add_left_comm] using this
    · rw [if_neg hc] at h
      simp at h

lemma firstFail_some_out (out : Nat → String → Bool) :
    ∀ (l : List String) (base k : Nat), firstFail out base l = some k →
      k < l.length ∧ out (base + k) (l.getD k "") = false ∧
        ∀ j, j < k → out (base + j) (l.getD j "") = true := by
  intro l
  induction l with
  | nil => intro base k h; simp [firstFail] at h
  | cons c cs ih =>
    intro base k h
    simp only [firstFail] at h
    by_cases hc : out base c
    · rw [if_pos hc] at h
      cases hcs : firstFail out (base + 1) cs with
      | none => rw [hcs] at h; simp at h
      | some m =>
        rw [hcs] at h
        simp only [Option.map_some', Option.some.injEq] at h
        obtain ⟨hm1, hm2, hm3⟩ := ih (base + 1) m hcs
        have hk : k = m + 1 := by omega
        subst hk
        refine ⟨by simpa using hm1, ?_, ?_⟩
        · simpa [Nat.add_comm, Nat.add_assoc, Nat.add_left_comm] using hm2
        · intro j hj
          cases j with
          | zero => simpa using hc
          | succ i =>
            have := hm3 i (by omega)
            simpa [Nat.add_comm, Nat.add_assoc, Nat.add_left_comm] using this
    · rw [if_neg hc] at h
      have hk : k = 0 := by
        simp only [Option.some_inj] at h
        omega
      subst hk
      exact ⟨by simp, by simpa using hc, by intro j hj; omega⟩

lemma getD_take (l : List String) (n i : Nat) (d : String) (h : i < n) :
    (l.take n).getD i d = l.getD i d := by
  simp [List.getD_eq_getElem?_getD, List.getElem?_take, h]

lemma execSh_cmds_true (out : Nat → String → Bool) (fuel : Nat)
    (l tr tr2 : List String) (h : execCmds out l tr = (tr2, true)) :
    execSh out fuel (.cmds l) tr = (tr2, .ok) := by
  simp only [execSh]
  rw [h]
  rfl

lemma execSh_cmds_false (out : Nat → String → Bool) (fuel : Nat)
    (l tr tr2 : List String) (h : execCmds out l tr = (tr2, false)) :
    execSh out fuel (.cmds l) tr = (tr2, .aborted) := by
  simp only [execSh]
  rw [h]
  rfl

lemma execSh_seq_ok (out : Nat → String → Bool) (fuel : Nat) (a b : Sh)
    (tr tr2 : List String) (h : execSh out fuel a tr = (tr2, .ok)) :
    execSh out fuel (.seq a b) tr = execSh out fuel b tr2 := by
  simp only [execSh]
  rw [h]

lemma execSh_seq_abort (out : Nat → String → Bool) (fuel : Nat) (a b : Sh)
    (tr tr2 : List String) (h : execSh out fuel a tr = (tr2, .aborted)) :
    execSh out fuel (.seq a b) tr = (tr2, .aborted) := by
  simp only [execSh]
  rw [h]

/-! ## Helper lemmas: database invariants -/

/-- The inductive invariant of reachable database states: join rows are
unique, join rows and patients reference identifiers below the generator,
and stored appointments have well-ordered times. -/
def DbInv (db : Db) : Prop :=
  db.assignments.Nodup
  ∧ (∀ a ∈ db.assignments, a.2 < db.nextId)
  ∧ (∀ q ∈ db.patients, q.patientMrn < db.nextId)
  ∧ (∀ a ∈ db.appointments, a.startTime < a.finishTime)

lemma is_assigned_iff_mem (db : Db) (d p : Nat) :
    is_assigned db d p = true ↔ (d, p) ∈ db.assignments := by
  simp only [is_assigned, List.any_eq_true, decide_eq_true_eq]
  constructor
  · rintro ⟨⟨a1, a2⟩, hmem, h1, h2⟩
    subst h1; subst h2; exact hmem
  · intro h; exact ⟨(d, p), h, rfl, rfl⟩

lemma assign_inv {db : Db} (d p : Nat) (h : DbInv db) :
    DbInv (assign db d p) := by
  obtain ⟨h1, h2, h3, h4⟩ := h
  unfold assign
  split
  · exact ⟨h1, h2, h3, h4⟩
  · rename_i hna
    split
    · rename_i hp
      refine ⟨?_, ?_, h3, h4⟩
      · have hnm : (d, p) ∉ db.assignments := fun hm =>
          hna ((is_assigned_iff_mem db d p).mpr hm)
        simp [List.nodup_append, h1, hnm]
      · intro a ha
        simp only [List.mem_append, List.mem_singleton] at ha
        cases ha with
        | inl ha => exact h2 a ha
        | inr ha =>
          subst ha
          simp only [List.any_eq_true, decide_eq_true_eq] at hp
          obtain ⟨q, hq, hqp⟩ := hp
          simpa [hqp] using h3 q hq
    · exact ⟨h1, h2, h3, h4⟩

lemma reachable_inv {db : Db} (h : Reachable db) : DbInv db := by
  induction h with
  | init =>
    refine ⟨List.nodup_nil, ?_, ?_, ?_⟩ <;> intro a ha <;> simp [initDb] at ha
  | registerStep hre hr ih =>
    obtain ⟨h1, h2, h3, h4⟩ := ih
    unfold register at hr
    split at hr
    · simp at hr
    · simp only [Except.ok.injEq, Prod.mk.injEq] at hr
      obtain ⟨hid, hdb⟩ := hr
      subst hdb
      exact ⟨h1, fun a ha => Nat.lt_succ_of_lt (h2 a ha),
             fun q hq => Nat.lt_succ_of_lt (h3 q hq), h4⟩
  | assignStep hre ih => exact assign_inv _ _ ih
  | createPatientStep hre ih =>
    rename_i db0 d ph nm
    obtain ⟨h1, h2, h3, h4⟩ := ih
    have hcp : (createPatient db0 d ph nm).2 =
        assign
          { db0 with
            patients := db0.patients ++
              [{ patientMrn := db0.nextId, phone := ph, name := nm }],
            nextId := db0.nextId + 1 } d db0.nextId := rfl
    rw [hcp]
    apply assign_inv
    refine ⟨h1, fun a ha => Nat.lt_succ_of_lt (h2 a ha), ?_, h4⟩
    intro q hq
    simp only [List.mem_append, List.mem_singleton] at hq
    cases hq with
    | inl hq => exact Nat.lt_succ_of_lt (h3 q hq)
    | inr hq => subst hq; exact Nat.lt_succ_self _
  | createNoteStep hre hr ih =>
    obtain ⟨h1, h2, h3, h4⟩ := ih
    unfold createNote at hr
    split at hr
    · simp at hr
    · simp only [Except.ok.injEq, Prod.mk.injEq] at hr
      obtain ⟨hid, hdb⟩ := hr
      subst hdb
      exact ⟨h1, fun a ha => Nat.lt_succ_of_lt (h2 a ha),
             fun q hq => Nat.lt_succ_of_lt (h3 q hq), h4⟩
  | updatePatientStep hre hr ih =>
    rename_i d p ph nm
    obtain ⟨h1, h2, h3, h4⟩ := ih
    unfold updatePatient at hr
    split at hr
    · simp at hr
    · split at hr
      · simp at hr
      · simp only [Except.ok.injEq] at hr
        subst hr
        refine ⟨h1, h2, ?_, h4⟩
        intro q hq
        simp only [List.mem_map] at hq
        obtain ⟨q0, hq0, hfq⟩ := hq
        subst hfq
        have hmrn : (if q0.patientMrn = p then { q0 with phone := ph, name := nm }
            else q0).patientMrn = q0.patientMrn := by split <;> rfl
        rw [hmrn]
        exact h3 q0 hq0
  | updateNoteStep hre hr ih =>
    obtain ⟨h1, h2, h3, h4⟩ := ih
    unfold updateNote at hr
    split at hr
    · simp at hr
    · split at hr
      · simp at hr
      · simp only [Except.ok.injEq] at hr
        subst hr
        exact ⟨h1, h2, h3, h4⟩
  | createAppointmentStep hre hr ih =>
    obtain ⟨h1, h2, h3, h4⟩ := ih
    unfold createAppointment at hr
    split at hr
    · simp at hr
    · split at hr
      · simp at hr
      · rename_i hna hle
        simp only [Except.ok.injEq, Prod.mk.injEq] at hr
        obtain ⟨hid, hdb⟩ := hr
        subst hdb
        refine ⟨h1, fun a ha => Nat.lt_succ_of_lt (h2 a ha),
                fun q hq => Nat.lt_succ_of_lt (h3 q hq), ?_⟩
        intro a ha
        simp only [List.mem_append, List.mem_singleton] at ha
        cases ha with
        | inl ha => exact h4 a ha
        | inr ha => subst ha; exact Nat.lt_of_not_le hle
  | updateAppointmentStep hre hr ih =>
    rename_i d aid de
    obtain ⟨h1, h2, h3, h4⟩ := ih
    unfold updateAppointment at hr
    split at hr
    · simp at hr
    · split at hr
      · simp at hr
      · simp only [Except.ok.injEq] at hr
        subst hr
        refine ⟨h1, h2, h3, ?_⟩
        intro a ha
        simp only [List.mem_map] at ha
        obtain ⟨a0, ha0, hfa⟩ := ha
        subst hfa
        have hst : (if a0.appointmentId = aid then { a0 with detail := de }
            else a0).startTime = a0.startTime := by split <;> rfl
        have hft : (if a0.appointmentId = aid then { a0 with detail := de }
            else a0).finishTime = a0.finishTime := by split <;> rfl
        rw [hst, hft]
        exact h4 a0 ha0

lemma assign_patients (db : Db) (d p : Nat) :
    (assign db d p).patients = db.patients := by
  unfold assign
  split
  · rfl
  · split <;> rfl

lemma is_assigned_eq_false {db : Db} {d p : Nat}
    (h : ¬ is_assigned db d p = true) : is_assigned db d p = false := by
  simpa using h

lemma assign_ins {db : Db} {d p : Nat}
    (hif : is_assigned db d p = false)
    (hp : db.patients.any (fun q => q.patientMrn = p) = true) :
    assign db d p = { db with assignments := db.assignments ++ [(d, p)] } := by
  simp [assign, hif, hp]

lemma is_assigned_assign (db : Db) (d p : Nat)
    (hp : db.patients.any (fun q => q.patientMrn = p) = true) :
    is_assigned (assign db d p) d p = true := by
  by_cases hi : is_assigned db d p = true
  · simp [assign, hi]
  · rw [assign_ins (is_assigned_eq_false hi) hp, is_assigned_iff_mem]
    simp

lemma not_assigned_of_ge {db : Db} (hinv : DbInv db) {d p : Nat}
    (hp : db.nextId ≤ p) : is_assigned db d p = false := by
  by_contra hc
  have hm := (is_assigned_iff_mem db d p).mp (by simpa using hc)
  have := hinv.2.1 _ hm
  omega

lemma assign_of_assigned {db : Db} {d p : Nat}
    (h : is_assigned db d p = true) : assign db d p = db := by
  unfold assign
  rw [if_pos h]

lemma assign_no_patient {db : Db} {d p : Nat}
    (hif : is_assigned db d p = false)
    (hpf : db.patients.any (fun q => q.patientMrn = p) = false) :
    assign db d p = db := by
  unfold assign
  rw [if_neg (by simp [hif]), if_neg (by simp [hpf])]

/-! ## The claims -/

/-- C2: for every doctor identity `d`, `verify (issue d)` returns `d`
whenever verification happens before the token's embedded expiration
(issue time plus the fixed TTL), and fails with `ExpiredToken` whenever
the current time exceeds that expiration. -/
theorem verify_issue_roundtrip (secret d t0 t1 : Nat) :
    (t1 < t0 + TTL → verify secret (issue secret d t0) t1 = .ok d)
    ∧ (t0 + TTL < t1 →
        verify secret (issue secret d t0) t1 = .error .expiredToken) := by
  constructor
  · intro h
    simp [verify, issue, Nat.not_lt.mpr h.le]
  · intro h
    simp [verify, issue, h]

theorem verify_issue_roundtrip_witness :
    verify 7 (issue 7 3 100) 200 = .ok 3
    ∧ verify 7 (issue 7 3 100) 5000 = .error .expiredToken :=
  ⟨(verify_issue_roundtrip 7 3 100 200).1 (by decide),
   (verify_issue_roundtrip 7 3 100 5000).2 (by decide)⟩

/-- C7: `verify` fails with `InvalidToken` when the token's signature does
not match the process-wide secret, fails with `ExpiredToken` when the
signature matches but the current time exceeds the embedded expiration,
and succeeds in every remaining case — expiration is the only
invalidation mechanism. -/
theorem verify_error_taxonomy (secret now : Nat) (t : Token) :
    (t.sig ≠ sign secret t.doctorId t.expiresAt →
      verify secret t now = .error .invalidToken)
    ∧ (t.sig = sign secret t.doctorId t.expiresAt → t.expiresAt < now →
      verify secret t now = .error .expiredToken)
    ∧ (t.sig = sign secret t.doctorId t.expiresAt → now ≤ t.expiresAt →
      verify secret t now = .ok t.doctorId) := by
  refine ⟨fun h => by simp [verify, h], fun h1 h2 => by simp [verify, h1, h2],
    fun h1 h2 => by simp [verify, h1, Nat.not_lt.mpr h2]⟩

theorem verify_error_taxonomy_witness :
    verify 1 { doctorId := 3, expiresAt := 100, sig := 0 } 50
      = .error .invalidToken
    ∧ verify 1 { doctorId := 3, expiresAt := 100, sig := sign 1 3 100 } 200
      = .error .expiredToken
    ∧ verify 1 { doctorId := 3, expiresAt := 100, sig := sign 1 3 100 } 80
      = .ok 3 :=
  ⟨(verify_error_taxonomy 1 50 { doctorId := 3, expiresAt := 100, sig := 0 }).1
      (by decide),
   (verify_error_taxonomy 1 200
      { doctorId := 3, expiresAt := 100, sig := sign 1 3 100 }).2.1 rfl
      (by decide),
   (verify_error_taxonomy 1 80
      { doctorId := 3, expiresAt := 100, sig := sign 1 3 100 }).2.2 rfl
      (by decide)⟩

/-- C4: `register` fails with `DuplicateEmail` exactly when a doctor with
that email is already registered; a first registration of a fresh email
succeeds with a doctor id, and a second registration of the same email
then fails with `DuplicateEmail`. -/
theorem register_duplicate_email_iff (db : Db) (e l p n pw : String) :
    (register db e l p n pw = .error .duplicateEmail
      ↔ db.doctors.any (fun d => d.email = e) = true)
    ∧ (db.doctors.any (fun d => d.email = e) = false →
        ∃ id db2, register db e l p n pw = .ok (id, db2)
          ∧ ∀ l2 p2 n2 pw2,
              register db2 e l2 p2 n2 pw2 = .error .duplicateEmail) := by
  by_cases hany : db.doctors.any (fun d => d.email = e) = true
  · refine ⟨⟨fun _ => hany, fun _ => by simp [register, hany]⟩, fun hf => ?_⟩
    rw [hany] at hf
    exact absurd hf (by simp)
  · have hf : db.doctors.any (fun d => d.email = e) = false := by simpa using hany
    refine ⟨⟨fun h => ?_, fun h => absurd h hany⟩, fun _ => ?_⟩
    · simp [register, hf] at h
    · refine ⟨db.nextId,
        { db with
          doctors := db.doctors ++
            [{ doctorId := db.nextId, email := e, licenseNum := l,
               phone := p, name := n, passwordHash := hashPw pw }],
          nextId := db.nextId + 1 },
        by simp [register, hf], ?_⟩
      intro l2 p2 n2 pw2
      simp [register, List.any_append]

theorem register_duplicate_email_iff_witness :
    register
      { initDb with
        doctors := [{ doctorId := 0, email := "doc@x.com", licenseNum := "L1",
                      phone := "010", name := "Kim", passwordHash := hashPw "pw" }],
        nextId := 1 } "doc@x.com" "L2" "011" "Lee" "pw2"
      = .error .duplicateEmail :=
  ((register_duplicate_email_iff
      { initDb with
        doctors := [{ doctorId := 0, email := "doc@x.com", licenseNum := "L1",
                      phone := "010", name := "Kim", passwordHash := hashPw "pw" }],
        nextId := 1 } "doc@x.com" "L2" "011" "Lee" "pw2").1).mpr (by decide)

/-- C6: `authenticate` answers with the same error value
`InvalidCredentials` both when the email is unknown and when the email
exists but the stored password hash does not match, so the two failure
causes are indistinguishable from the result; on success it returns the
token obtained from `issue`. -/
theorem authenticate_uniform_error (secret : Nat) (db : Db) (e pw : String)
    (now : Nat) :
    (db.doctors.find? (fun d => d.email = e) = none →
      authenticate secret db e pw now = .error .invalidCredentials)
    ∧ (∀ d, db.doctors.find? (fun d2 => d2.email = e) = some d →
        d.passwordHash ≠ hashPw pw →
        authenticate secret db e pw now = .error .invalidCredentials)
    ∧ (∀ d, db.doctors.find? (fun d2 => d2.email = e) = some d →
        d.passwordHash = hashPw pw →
        authenticate secret db e pw now = .ok (issue secret d.doctorId now)) := by
  refine ⟨fun h => ?_, fun d h hne => ?_, fun d h he => ?_⟩
  · simp [authenticate, h]
  · simp [authenticate, h, hne]
  · simp [authenticate, h, he]

theorem authenticate_uniform_error_witness :
    authenticate 7 demoDb "nobody@x.com" "pw" 0 = .error .invalidCredentials
    ∧ authenticate 7 demoDb "doc@x.com" "wrong" 0 = .error .invalidCredentials
    ∧ authenticate 7 demoDb "doc@x.com" "pw" 0 = .ok (issue 7 0 0) :=
  ⟨(authenticate_uniform_error 7 demoDb "nobody@x.com" "pw" 0).1 (by decide),
   (authenticate_uniform_error 7 demoDb "doc@x.com" "wrong" 0).2.1
     { doctorId := 0, email := "doc@x.com", licenseNum := "L1", phone := "010",
       name := "Kim", passwordHash := hashPw "pw" } (by decide) (by decide),
   (authenticate_uniform_error 7 demoDb "doc@x.com" "pw" 0).2.2
     { doctorId := 0, email := "doc@x.com", licenseNum := "L1", phone := "010",
       name := "Kim", passwordHash := hashPw "pw" } (by decide) rfl⟩

/-- C1: a doctor `d` not assigned to patient `p` has every read and update
of `p`, of a note of `p`, and of an appointment of `p` answered with
`NotAssigned`, even when presenting a valid (verifying) token. -/
theorem unassigned_doctor_blocked (secret now : Nat) (db : Db) (tok : Token)
    (d p nid aid : Nat) (ph nm c de : String) (n : Note) (a : Appointment)
    (hv : verify secret tok now = .ok d)
    (hna : is_assigned db d p = false)
    (hn : db.notes.find? (fun m => m.noteId = nid) = some n)
    (hnp : n.patientMrn = p)
    (ha : db.appointments.find? (fun b => b.appointmentId = aid) = some a)
    (hap : a.patientMrn = p) :
    guardHandle secret now (some tok) (fun i => readPatient db i p)
      = .error .notAssigned
    ∧ guardHandle secret now (some tok) (fun i => updatePatient db i p ph nm)
      = .error .notAssigned
    ∧ guardHandle secret now (some tok) (fun i => readNote db i nid)
      = .error .notAssigned
    ∧ guardHandle secret now (some tok) (fun i => updateNote db i nid c)
      = .error .notAssigned
    ∧ guardHandle secret now (some tok) (fun i => readAppointment db i aid)
      = .error .notAssigned
    ∧ guardHandle secret now (some tok) (fun i => updateAppointment db i aid de)
      = .error .notAssigned := by
  have hg : ∀ {α : Type} (f : Nat → Except AppError α),
      guardHandle secret now (some tok) f = f d := by
    intro α f
    simp [guardHandle, hv]
  simp only [hg]
  exact ⟨by simp [readPatient, hna], by simp [updatePatient, hna],
    by simp [readNote, hn, hnp, hna], by simp [updateNote, hn, hnp, hna],
    by simp [readAppointment, ha, hap, hna],
    by simp [updateAppointment, ha, hap, hna]⟩

theorem unassigned_doctor_blocked_witness :
    guardHandle 7 0 (some (issue 7 5 0)) (fun i => readPatient demoDb i 1)
      = .error .notAssigned
    ∧ guardHandle 7 0 (some (issue 7 5 0))
        (fun i => updatePatient demoDb i 1 "012" "Park") = .error .notAssigned
    ∧ guardHandle 7 0 (some (issue 7 5 0)) (fun i => readNote demoDb i 10)
      = .error .notAssigned
    ∧ guardHandle 7 0 (some (issue 7 5 0)) (fun i => updateNote demoDb i 10 "c2")
      = .error .notAssigned
    ∧ guardHandle 7 0 (some (issue 7 5 0)) (fun i => readAppointment demoDb i 20)
      = .error .notAssigned
    ∧ guardHandle 7 0 (some (issue 7 5 0))
        (fun i => updateAppointment demoDb i 20 "d2") = .error .notAssigned :=
  unassigned_doctor_blocked 7 0 demoDb (issue 7 5 0) 5 1 10 20 "012" "Park"
    "c2" "d2"
    { noteId := 10, patientMrn := 1, doctorId := 0, title := "t",
      content := "c", noteType := "general" }
    { appointmentId := 20, patientMrn := 1, doctorId := 0,
      detail := "checkup", startTime := 100, finishTime := 200 }
    rfl (by decide) (by decide) rfl (by decide) rfl

/-- C3: `assign` is idempotent — re-assigning an existing (doctor,
patient) pair is a no-op, and `assign` is a total function into database
states so no uniqueness error ever reaches the caller; in every reachable
state each (doctor, patient) pair appears at most once in the assignment
relation, also after a further `assign`. -/
theorem assign_idempotent_at_most_once (db : Db) (d p : Nat)
    (h : Reachable db) :
    assign (assign db d p) d p = assign db d p
    ∧ (is_assigned db d p = true → assign db d p = db)
    ∧ (assign db d p).assignments.Nodup := by
  refine ⟨?_, fun hi => assign_of_assigned hi, ?_⟩
  · by_cases hi : is_assigned db d p = true
    · rw [assign_of_assigned hi]
      exact assign_of_assigned hi
    · have hif := is_assigned_eq_false hi
      by_cases hp : db.patients.any (fun q => q.patientMrn = p) = true
      · exact assign_of_assigned (is_assigned_assign db d p hp)
      · have hpf : db.patients.any (fun q => q.patientMrn = p) = false := by
          simpa using hp
        rw [assign_no_patient hif hpf]
        exact assign_no_patient hif hpf
  · exact (assign_inv d p (reachable_inv h)).1

theorem assign_idempotent_at_most_once_witness :
    assign (assign initDb 1 2) 1 2 = assign initDb 1 2
    ∧ (assign initDb 1 2).assignments.Nodup :=
  ⟨(assign_idempotent_at_most_once initDb 1 2 Reachable.init).1,
   (assign_idempotent_at_most_once initDb 1 2 Reachable.init).2.2⟩

/-- C5: when doctor `A` creates a patient, `A` is automatically assigned
to the fresh MRN and any other doctor `B` is not; `B` becomes assigned
only by an explicit `assign`, and creating a note never changes the
assignment relation (in particular `B` attempting it is refused with
`NotAssigned`). -/
theorem create_patient_auto_assign (db : Db) (h : Reachable db)
    (A B : Nat) (hBA : B ≠ A) (ph nm : String) :
    is_assigned (createPatient db A ph nm).2 A (createPatient db A ph nm).1
      = true
    ∧ is_assigned (createPatient db A ph nm).2 B (createPatient db A ph nm).1
      = false
    ∧ is_assigned
        (assign (createPatient db A ph nm).2 B (createPatient db A ph nm).1)
        B (createPatient db A ph nm).1 = true
    ∧ (∀ t c ty,
        createNote (createPatient db A ph nm).2 B (createPatient db A ph nm).1
          t c ty = .error .notAssigned)
    ∧ (∀ d2 p2 t c ty id2 db2, createNote db d2 p2 t c ty = .ok (id2, db2) →
        db2.assignments = db.assignments) := by
  have hinv := reachable_inv h
  have hcp1 : (createPatient db A ph nm).1 = db.nextId := rfl
  have hcp2 : (createPatient db A ph nm).2 =
      assign
        { db with
          patients := db.patients ++
            [{ patientMrn := db.nextId, phone := ph, name := nm }],
          nextId := db.nextId + 1 } A db.nextId := rfl
  have hinv1 : DbInv
      { db with
        patients := db.patients ++
          [{ patientMrn := db.nextId, phone := ph, name := nm }],
        nextId := db.nextId + 1 } := by
    obtain ⟨h1, h2, h3, h4⟩ := hinv
    refine ⟨h1, fun a ha => Nat.lt_succ_of_lt (h2 a ha), ?_, h4⟩
    intro q hq
    simp only [List.mem_append, List.mem_singleton] at hq
    cases hq with
    | inl hq => exact Nat.lt_succ_of_lt (h3 q hq)
    | inr hq => subst hq; exact Nat.lt_succ_self _
  have hna1 : is_assigned
      { db with
        patients := db.patients ++
          [{ patientMrn := db.nextId, phone := ph, name := nm }],
        nextId := db.nextId + 1 } A db.nextId = false := by
    refine is_assigned_eq_false ?_
    intro hc
    have hm := (is_assigned_iff_mem _ _ _).mp hc
    have := hinv.2.1 _ hm
    omega
  have hp1 :
      ({ db with
        patients := db.patients ++
          [{ patientMrn := db.nextId, phone := ph, name := nm }],
        nextId := db.nextId + 1 } : Db).patients.any
        (fun q => q.patientMrn = db.nextId) = true := by
    simp [List.any_append]
  have hb : is_assigned (createPatient db A ph nm).2 B
      (createPatient db A ph nm).1 = false := by
    rw [hcp1, hcp2, assign_ins hna1 hp1]
    refine is_assigned_eq_false ?_
    intro hc
    have hm := (is_assigned_iff_mem _ _ _).mp hc
    simp only [List.mem_append, List.mem_singleton] at hm
    cases hm with
    | inl hm =>
      have := hinv.2.1 _ hm
      omega
    | inr hm => exact hBA (congrArg Prod.fst hm)
  refine ⟨?_, hb, ?_, ?_, ?_⟩
  · rw [hcp1, hcp2]
    exact is_assigned_assign _ _ _ hp1
  · rw [hcp1, hcp2]
    apply is_assigned_assign
    rw [assign_patients]
    exact hp1
  · intro t c ty
    simp [createNote, hb]
  · intro d2 p2 t c ty id2 db2 hok
    unfold createNote at hok
    split at hok
    · simp at hok
    · simp only [Except.ok.injEq, Prod.mk.injEq] at hok
      obtain ⟨hid, hdb⟩ := hok
      subst hdb
      rfl

theorem create_patient_auto_assign_witness :
    is_assigned (createPatient initDb 0 "010" "Kim").2 0
      (createPatient initDb 0 "010" "Kim").1 = true
    ∧ is_assigned (createPatient initDb 0 "010" "Kim").2 1
      (createPatient initDb 0 "010" "Kim").1 = false
    ∧ is_assigned
        (assign (createPatient initDb 0 "010" "Kim").2 1
          (createPatient initDb 0 "010" "Kim").1) 1
        (createPatient initDb 0 "010" "Kim").1 = true
    ∧ createNote (createPatient initDb 0 "010" "Kim").2 1
        (createPatient initDb 0 "010" "Kim").1 "t" "c" "g"
      = .error .notAssigned :=
  ⟨(create_patient_auto_assign initDb Reachable.init 0 1 (by decide) "010" "Kim").1,
   (create_patient_auto_assign initDb Reachable.init 0 1 (by decide) "010" "Kim").2.1,
   (create_patient_auto_assign initDb Reachable.init 0 1 (by decide) "010" "Kim").2.2.1,
   (create_patient_auto_assign initDb Reachable.init 0 1 (by decide) "010"
     "Kim").2.2.2.1 "t" "c" "g"⟩

/-- C8: on a protected endpoint, a request whose bearer token fails
`verify` is answered with that authentication error (its status is
HTTP 401) and the business handler is never consulted — the guarded
result is the same for every handler; public endpoints (registration,
login) ignore the token entirely. -/
theorem guard_rejects_and_public_bypass (secret now : Nat) (db : Db)
    (ep : Endpoint) (t : Token) (e : AppError)
    (hprot : isPublic ep = false)
    (hv : verify secret t now = .error e) :
    dispatch secret now db ep (some t) = .error e
    ∧ statusOf e = 401
    ∧ (∀ h1 h2 : Nat → Except AppError RespBody,
        guardHandle secret now (some t) h1 = guardHandle secret now (some t) h2)
    ∧ (∀ ep2, isPublic ep2 = true → ∀ tok1 tok2 : Option Token,
        dispatch secret now db ep2 tok1 = dispatch secret now db ep2 tok2) := by
  have hgh : ∀ (f : Nat → Except AppError RespBody),
      guardHandle secret now (some t) f = .error e := by
    intro f
    simp [guardHandle, hv]
  refine ⟨?_, ?_, fun h1 h2 => by rw [hgh, hgh], ?_⟩
  · cases ep with
    | registerEp e1 l1 p1 n1 pw1 => simp [isPublic] at hprot
    | loginEp e1 pw1 => simp [isPublic] at hprot
    | readPatientEp p => exact hgh _
    | readNoteEp nid => exact hgh _
    | readAppointmentEp aid => exact hgh _
  · unfold verify at hv
    split at hv
    · simp only [Except.error.injEq] at hv
      subst hv
      rfl
    · split at hv
      · simp only [Except.error.injEq] at hv
        subst hv
        rfl
      · simp at hv
  · intro ep2 hpub tok1 tok2
    cases ep2 with
    | registerEp e1 l1 p1 n1 pw1 => rfl
    | loginEp e1 pw1 => rfl
    | readPatientEp p => simp [isPublic] at hpub
    | readNoteEp nid => simp [isPublic] at hpub
    | readAppointmentEp aid => simp [isPublic] at hpub

theorem guard_rejects_and_public_bypass_witness :
    dispatch 1 0 initDb (.readPatientEp 0)
      (some { doctorId := 0, expiresAt := 0, sig := 0 }) = .error .invalidToken
    ∧ statusOf .invalidToken = 401
    ∧ guardHandle 1 0 (some { doctorId := 0, expiresAt := 0, sig := 0 })
        (fun _ => (.error .notFound : Except AppError RespBody))
      = guardHandle 1 0 (some { doctorId := 0, expiresAt := 0, sig := 0 })
        (fun _ => (.error .validationError : Except AppError RespBody))
    ∧ dispatch 1 0 initDb (.loginEp "a@x.com" "pw") none
      = dispatch 1 0 initDb (.loginEp "a@x.com" "pw")
        (some { doctorId := 0, expiresAt := 0, sig := 0 }) :=
  ⟨(guard_rejects_and_public_bypass 1 0 initDb (.readPatientEp 0)
      { doctorId := 0, expiresAt := 0, sig := 0 } .invalidToken rfl rfl).1,
   (guard_rejects_and_public_bypass 1 0 initDb (.readPatientEp 0)
      { doctorId := 0, expiresAt := 0, sig := 0 } .invalidToken rfl rfl).2.1,
   (guard_rejects_and_public_bypass 1 0 initDb (.readPatientEp 0)
      { doctorId := 0, expiresAt := 0, sig := 0 } .invalidToken rfl
      rfl).2.2.1 (fun _ => (.error .notFound : Except AppError RespBody))
      (fun _ => (.error .validationError : Except AppError RespBody)),
   (guard_rejects_and_public_bypass 1 0 initDb (.readPatientEp 0)
      { doctorId := 0, expiresAt := 0, sig := 0 } .invalidToken rfl
      rfl).2.2.2 (.loginEp "a@x.com" "pw") rfl none
      (some { doctorId := 0, expiresAt := 0, sig := 0 })⟩

/-- C9: in every reachable database state each stored appointment has its
start time strictly before its finish time; creating an appointment whose
end precedes its start is refused with `ValidationError` (for an assigned
doctor), and any failed creation commits nothing, leaving the database
unchanged. -/
theorem appointment_times_ordered (db : Db) (h : Reachable db)
    (d p st ft : Nat) (de : String) :
    (∀ a ∈ db.appointments, a.startTime < a.finishTime)
    ∧ (is_assigned db d p = true → ft < st →
        createAppointment db d p de st ft = .error .validationError)
    ∧ (∀ e, createAppointment db d p de st ft = .error e →
        commitCreateAppointment db d p de st ft = db) := by
  refine ⟨(reachable_inv h).2.2.2, fun hia hlt => ?_, fun e he => ?_⟩
  · simp [createAppointment, hia, Nat.le_of_lt hlt]
  · simp [commitCreateAppointment, he]

theorem appointment_times_ordered_witness :
    createAppointment (createPatient initDb 0 "010" "Kim").2 0 0 "checkup" 10 5
      = .error .validationError
    ∧ commitCreateAppointment (createPatient initDb 0 "010" "Kim").2 0 0
        "checkup" 10 5 = (createPatient initDb 0 "010" "Kim").2 :=
  ⟨(appointment_times_ordered (createPatient initDb 0 "010" "Kim").2
      (Reachable.createPatientStep Reachable.init) 0 0 10 5 "checkup").2.1
      (by decide) (by decide),
   (appointment_times_ordered (createPatient initDb 0 "010" "Kim").2
      (Reachable.createPatientStep Reachable.init) 0 0 10 5 "checkup").2.2
      .validationError
      ((appointment_times_ordered (createPatient initDb 0 "010" "Kim").2
        (Reachable.createPatientStep Reachable.init) 0 0 10 5 "checkup").2.1
        (by decide) (by decide))⟩

/-- C10: in every run of `setup.sh`, if `docker compose up -d` (command 11)
executed then the trace up to it is exactly the unconditional opening
command sequence, in which `docker compose down -v` is command 7 and
succeeded — so the containers and data volumes of a previous run were
removed before fresh containers started; and under `set -e` the run stops
at the first failing opening command, executing nothing after it. -/
theorem setup_down_v_before_up (out : Nat → String → Bool) (fuel : Nat) :
    ("docker compose up -d" ∈ (execSh out fuel setupScript []).1 →
      ((execSh out fuel setupScript []).1.take 12 = earlyCmds.take 12
        ∧ (execSh out fuel setupScript []).1.getD 7 ""
            = "docker compose down -v"
        ∧ (execSh out fuel setupScript []).1.getD 11 ""
            = "docker compose up -d"
        ∧ out 7 "docker compose down -v" = true))
    ∧ (∀ k, firstFail out 0 earlyCmds = some k →
        execSh out fuel setupScript [] = (earlyCmds.take (k + 1), .aborted)) := by
  rcases hff : firstFail out 0 earlyCmds with _ | k
  · have hcmds : execCmds out earlyCmds [] = (earlyCmds, true) := by
      rw [execCmds_spec]
      simp [hff]
    have hstep : execSh out fuel setupScript [] =
        execSh out fuel setupRest earlyCmds :=
      execSh_seq_ok out fuel (.cmds earlyCmds) setupRest [] earlyCmds
        (execSh_cmds_true out fuel earlyCmds [] earlyCmds hcmds)
    obtain ⟨ext, hext⟩ := execSh_append out fuel setupRest earlyCmds
    constructor
    · intro hmem
      refine ⟨?_, ?_, ?_, ?_⟩
      · rw [hstep, hext, List.take_append_of_le_length (by decide)]
      · rw [hstep, hext, List.getD_append _ _ _ _ (by decide)]
        rfl
      · rw [hstep, hext, List.getD_append _ _ _ _ (by decide)]
        rfl
      · exact firstFail_none_out out earlyCmds 0 hff 7 (by decide)
    · intro k hk
      cases hk
  · have hcmds : execCmds out earlyCmds [] = (earlyCmds.take (k + 1), false) := by
      rw [execCmds_spec]
      simp [hff]
    have hstep : execSh out fuel setupScript []
        = (earlyCmds.take (k + 1), .aborted) :=
      execSh_seq_abort out fuel (.cmds earlyCmds) setupRest []
        (earlyCmds.take (k + 1))
        (execSh_cmds_false out fuel earlyCmds [] (earlyCmds.take (k + 1)) hcmds)
    obtain ⟨hklen, hkfail, hkpre⟩ := firstFail_some_out out earlyCmds 0 k hff
    constructor
    · intro hmem
      rw [hstep] at hmem
      have h11 : 11 ≤ k := by
        by_contra hlt
        push_neg at hlt
        interval_cases k <;> exact absurd hmem (by decide)
      refine ⟨?_, ?_, ?_, ?_⟩
      · rw [hstep]
        show (earlyCmds.take (k + 1)).take 12 = earlyCmds.take 12
        rw [List.take_take, Nat.min_eq_left (by omega)]
      · rw [hstep]
        show (earlyCmds.take (k + 1)).getD 7 "" = "docker compose down -v"
        rw [getD_take earlyCmds (k + 1) 7 "" (by omega)]
        rfl
      · rw [hstep]
        show (earlyCmds.take (k + 1)).getD 11 "" = "docker compose up -d"
        rw [getD_take earlyCmds (k + 1) 11 "" (by omega)]
        rfl
      · exact hkpre 7 (by omega)
    · intro k2 hk2
      cases hk2
      exact hstep

theorem setup_down_v_before_up_witness :
    (execSh (fun _ _ => true) 2 setupScript []).1.take 12 = earlyCmds.take 12
    ∧ (execSh (fun _ _ => true) 2 setupScript []).1.getD 7 ""
        = "docker compose down -v"
    ∧ (execSh (fun _ _ => true) 2 setupScript []).1.getD 11 ""
        = "docker compose up -d"
    ∧ (fun (_ : Nat) (_ : String) => true) 7 "docker compose down -v" = true :=
  (setup_down_v_before_up (fun _ _ => true) 2).1 (by decide)

end PIEthon

